import Mathlib

set_option maxHeartbeats 1000000
set_option linter.unusedVariables false

deriving instance DecidableEq for Except

/-!
Shallow embedding of the reference-resolution core of
`cschleiden/gh-effective-workflow` (Go): the data model from
`references.go`, the extractor `GetReferences`, and the orchestration
pieces of `runView` (`main.go`) that the specification talks about.

Machine-level conventions of the embedding:
* Go runtime panics (out-of-range indexing/slicing) are modelled by an
  outer `Option`: `none` means the Go program crashes, `some` that it
  returns normally (either an error value or a result).
* `yaml.Unmarshal` is an external library; it is modelled as an oracle:
  each workflow is paired with its parse outcome
  (`Except String WorkflowNode`).  The `jobs` field of a decoded
  `WorkflowNode` is a Go `map[string]Job`; a Go map has no
  specified iteration order, so the model represents the map together
  with one concrete iteration order as an association list — two runs
  of the program on identical input may observe two different orders
  (any two permutations of the same bindings).
* A `nil` Go map (key `jobs` absent) is `none`; an empty map is `some []`.
-/

/-- Workflow record from `references.go` lines 10-17. -/
structure Workflow where
  name : String
  refPath : String
  filename : String
  ref : String
  sha : String
  yaml : String
deriving DecidableEq, Repr

/-- Reference record from `references.go` lines 19-23 (`SourceLineNo` is a Go `int`;
the yaml library only ever reports non-negative lines, so `Nat` here). -/
structure Reference where
  sourceFilename : String
  sourceLine : String
  sourceLineNo : Nat
deriving DecidableEq, Repr

/-- ReferencedWorkflow from `main.go` lines 184-188 (run metadata entry). -/
structure ReferencedWorkflow where
  path : String
  sha : String
  ref : String
deriving DecidableEq, Repr

/-- The fields of `yaml.Node` (gopkg.in/yaml.v3) that `GetReferences` reads:
`Kind` (uint32: 1 document, 2 sequence, 4 mapping, 8 scalar, 16 alias; 0 when
the node is the zero value), `Tag`, `Value`, `Line` (1-based). -/
structure YamlNode where
  kind : Nat
  tag : String
  value : String
  line : Nat
deriving DecidableEq, Repr

/-- yaml.v3 `ScalarNode` constant (= 8). -/
def scalarNode : Nat := 8

/-- yaml.v3 `MappingNode` constant (= 4). -/
def mappingNode : Nat := 4

/-- yaml.v3 `SequenceNode` constant (= 2). -/
def sequenceNode : Nat := 2

/-- yaml.v3 `Node.IsZero`: true iff every field is its zero value (restricted
to the fields the embedding carries; the unmodelled fields are constant). -/
def YamlNode.isZero (n : YamlNode) : Bool :=
  n.kind == 0 && n.tag == "" && n.value == "" && n.line == 0

/-- Job from `references.go` lines 30-32: only the `uses` node. -/
structure Job where
  uses : YamlNode
deriving DecidableEq, Repr

/-- WorkflowNode from `references.go` lines 26-28: the decoded `jobs` map.
`none` models a `nil` Go map (the `jobs` key absent); `some js` models a
non-nil map whose bindings are iterated in the order of the list `js`. -/
structure WorkflowNode where
  jobs : Option (List (String × Job))
deriving DecidableEq, Repr

/-- Splitting a character list at every occurrence of `c`; this is Go
`strings.Split` for a one-character separator (always at least one piece;
`Split("", sep) = [""]`). -/
def splitOnChar (c : Char) : List Char → List (List Char)
  | [] => [[]]
  | x :: xs =>
    if x = c then [] :: splitOnChar c xs
    else
      match splitOnChar c xs with
      | y :: ys => (x :: y) :: ys
      | [] => [[x]]

/-- Go `strings.Split(s, sep)` for a single-character separator. -/
def goSplit (sep : Char) (s : String) : List String :=
  (splitOnChar sep s.data).map String.mk

/-- Go `strings.Split(workflow.YAML, "\n")` (`references.go` line 60). -/
def splitLines (s : String) : List String :=
  goSplit (Char.ofNat 10) s

/-- Go `strings.Split(s, "\n")[n-1]` (`references.go` line 60): `none` when the
index is out of range, in which case the Go program panics. -/
def lineAt (s : String) (n : Nat) : Option String :=
  if h : 1 ≤ n ∧ n - 1 < (splitLines s).length then
    some ((splitLines s).get ⟨n - 1, h.2⟩)
  else none

/-- The Go `map[string][]Reference` result, modelled as an association list
with one entry per key (key order immaterial: a Go map is unordered; only
the list stored under each key is ordered). -/
abbrev RefIndex := List (String × List Reference)

/-- Go map lookup `result[k]` with the zero value `[]` for a missing key. -/
def lookupD : RefIndex → String → List Reference
  | [], _ => []
  | (k', v) :: rest, k => if k' = k then v else lookupD rest k

/-- The two map writes of `references.go` lines 54-62 combined: ensure the key
exists (`result[k] = []` when absent) and append one `Reference` to its list. -/
def insertRef : RefIndex → String → Reference → RefIndex
  | [], k, r => [(k, [r])]
  | (k', v) :: rest, k, r =>
    if k' = k then (k', v ++ [r]) :: rest else (k', v) :: insertRef rest k r

/-- Body of the per-job loop of `GetReferences` (`references.go` lines 46-63):
skip a zero `uses` node; reject a node that is not a `!!str` scalar with the
error of line 48; otherwise record a `Reference` built from the workflow's
filename, the raw text of line `uses.Line` (panic — `none` — when out of
range), and the line number. -/
def processJob (wf : Workflow) (j : Job) (m : RefIndex) : Option (Except String RefIndex) :=
  if j.uses.isZero then some (Except.ok m)
  else if j.uses.kind ≠ scalarNode ∨ j.uses.tag ≠ "!!str" then
    some (Except.error ("unexpected node type for uses: " ++ toString j.uses.kind))
  else
    match lineAt wf.yaml j.uses.line with
    | none => none
    | some ln => some (Except.ok (insertRef m j.uses.value ⟨wf.filename, ln, j.uses.line⟩))

/-- The `for _, job := range wfNode.Jobs` loop (`references.go` lines 45-64),
iterating the jobs map in the supplied order. -/
def processJobs (wf : Workflow) : List (String × Job) → RefIndex → Option (Except String RefIndex)
  | [], m => some (Except.ok m)
  | (_, j) :: rest, m =>
    match processJob wf j m with
    | none => none
    | some (Except.error e) => some (Except.error e)
    | some (Except.ok m') => processJobs wf rest m'

/-- The `for _, workflow := range workflows` loop (`references.go` lines 37-66):
unmarshal each workflow's YAML (outcome supplied by the parse oracle paired
with the workflow), return the wrapped error of line 40 on parse failure,
skip a `nil` jobs map, and otherwise process the jobs. -/
def getReferencesAux : List (Workflow × Except String WorkflowNode) → RefIndex → Option (Except String RefIndex)
  | [], m => some (Except.ok m)
  | (wf, p) :: rest, m =>
    match p with
    | Except.error e => some (Except.error ("failed to unmarshal yaml: " ++ e))
    | Except.ok node =>
      match node.jobs with
      | none => getReferencesAux rest m
      | some js =>
        match processJobs wf js m with
        | none => none
        | some (Except.error e) => some (Except.error e)
        | some (Except.ok m') => getReferencesAux rest m'

/-- GetReferences (`references.go` lines 34-69).  Each workflow comes paired
with its `yaml.Unmarshal` outcome (see the module comment); the `references`
argument is present in the Go signature but unused by the body. -/
def GetReferences (workflows : List (Workflow × Except String WorkflowNode))
    (references : List ReferencedWorkflow) : Option (Except String RefIndex) :=
  getReferencesAux workflows []

/-- Contribution of a single job to the reference stream, mirroring the record
built at `references.go` lines 58-62: `none` for a zero `uses` node or an
out-of-range line, otherwise the invocation string paired with the built
`Reference`.  (A job whose `uses` node is not a `!!str` scalar makes the real
loop fail, so under a successful run such jobs never occur.) -/
def jobContrib (wf : Workflow) (j : Job) : Option (String × Reference) :=
  if j.uses.isZero then none
  else
    match lineAt wf.yaml j.uses.line with
    | none => none
    | some ln => some (j.uses.value, ⟨wf.filename, ln, j.uses.line⟩)

/-- Contributions of one workflow's jobs, in iteration order. -/
def jobRefs (wf : Workflow) (js : List (String × Job)) : List (String × Reference) :=
  js.filterMap (fun p => jobContrib wf p.2)

/-- Contributions of one scanned workflow (empty on parse failure or a `nil`
jobs map — under a successful run the parse never fails). -/
def wfContrib : Workflow × Except String WorkflowNode → List (String × Reference)
  | (wf, Except.ok node) =>
    match node.jobs with
    | some js => jobRefs wf js
    | none => []
  | (_, Except.error _) => []

/-- The whole reference stream of a scan, workflow by workflow in scan order. -/
def allContribs (wfs : List (Workflow × Except String WorkflowNode)) : List (String × Reference) :=
  (wfs.map wfContrib).flatten

/-- References contributed under one key, in stream order. -/
def filterKey (k : String) (l : List (String × Reference)) : List Reference :=
  l.filterMap (fun p => if p.1 = k then some p.2 else none)

/-- Parse of a referenced-workflow invocation string, `main.go` lines 129-136:
`t := strings.Split(s, "@"); path := t[0]; ref := t[1]` (panic when there is
no `@`), then `u := strings.Split(path, "/")`, `nwo := strings.Join(u[0:2], "/")`
(panic when `u` has fewer than 2 segments) and the in-repo path
`strings.Join(u[2:], "/")`.  Result `(nwo, inRepoPath, ref)`; `none` models a
Go runtime panic (index or slice out of range). -/
def parseRefWFPath (s : String) : Option (String × String × String) :=
  match goSplit (Char.ofNat 64) s with
  | path :: ref :: _ =>
    match goSplit (Char.ofNat 47) path with
    | a :: b :: rest => some (a ++ "/" ++ b, String.intercalate "/" rest, ref)
    | _ => none
  | _ => none

/-- The two fields of the gh API workflow metadata that `runView` reads
(`wfshared.Workflow`): display name and canonical in-repo path. -/
structure WfMeta where
  name : String
  path : String
deriving DecidableEq, Repr

/-- Go `path.Base`, used by `workflow.Base()`: basename of a slash-separated
path, `"."` for the empty string, `"/"` for all-slashes. -/
def pathBase (p : String) : String :=
  if p = "" then "."
  else
    let trimmed := (p.data.reverse.dropWhile (fun c => c = Char.ofNat 47)).reverse
    if trimmed = [] then "/"
    else String.mk ((trimmed.reverse.takeWhile (fun c => c ≠ Char.ofNat 47)).reverse)

/-- Run metadata consumed by `runView`: head branch, head SHA and the
declared referenced workflows (`main.go` lines 106, 118-127, 190-194). -/
structure RunData where
  headBranch : String
  headSha : String
  referencedWorkflows : List ReferencedWorkflow
deriving DecidableEq, Repr

/-- Construction of the top-level (calling) workflow record, `main.go`
lines 118-125: note `RefPath` is set to the workflow's canonical path from
metadata and `Filename` to its basename. -/
def mkCallingWorkflow (meta : WfMeta) (headBranch headSha content : String) : Workflow :=
  { name := meta.name, refPath := meta.path, filename := pathBase meta.path,
    ref := headBranch, sha := headSha, yaml := content }

/-- The referenced-workflows loop of `runView`, `main.go` lines 127-163.
`repoParse` models the external `repo.Parse`, `fetchMeta` models
`getWorkflowByID` and `fetchContent` models `getWorkflowContent` (all
external REST collaborators, supplied as oracles).  The outer `Option` is
`none` when the path parse panics; the `Except` carries the wrapped errors of
lines 140, 145, 150. -/
def resolveReferenced (repoParse : String → Except String String)
    (fetchMeta : String → String → Except String WfMeta)
    (fetchContent : String → String → String → Except String String) :
    List ReferencedWorkflow → Option (Except String (List Workflow))
  | [] => some (Except.ok [])
  | refWF :: rest =>
    match parseRefWFPath refWF.path with
    | none => none
    | some (nwo, path, ref) =>
      match repoParse nwo with
      | Except.error e => some (Except.error ("failed to parse referenced repo: " ++ e))
      | Except.ok r =>
        match fetchMeta r path with
        | Except.error e => some (Except.error ("failed to get workflow: " ++ e))
        | Except.ok meta =>
          match fetchContent r path ref with
          | Except.error e => some (Except.error ("failed to get workflow content: " ++ e))
          | Except.ok content =>
            match resolveReferenced repoParse fetchMeta fetchContent rest with
            | none => none
            | some (Except.error e) => some (Except.error e)
            | some (Except.ok wfs) =>
              some (Except.ok ({ name := meta.name, refPath := refWF.path,
                                 filename := pathBase meta.path, ref := ref,
                                 sha := refWF.sha, yaml := content } :: wfs))

/-- Workflow-set construction of `runView`, `main.go` lines 116-163: the
calling workflow record plus the resolved referenced workflows, in the
declared order (they are then concatenated calling-first at line 166). -/
def buildAllWorkflows (repoParse : String → Except String String)
    (fetchMeta : String → String → Except String WfMeta)
    (fetchContent : String → String → String → Except String String)
    (meta : WfMeta) (content : String) (run : RunData) :
    Option (Except String (Workflow × List Workflow)) :=
  match resolveReferenced repoParse fetchMeta fetchContent run.referencedWorkflows with
  | none => none
  | some (Except.error e) => some (Except.error e)
  | some (Except.ok wfs) =>
    some (Except.ok (mkCallingWorkflow meta run.headBranch run.headSha content, wfs))

/-- Error result of the external content fetch: either a typed HTTP error
(`api.HTTPError`, carrying a status code and its rendered message) or some
other error with its message. -/
inductive FetchErr where
  | http (statusCode : Nat) (msg : String)
  | other (msg : String)
deriving DecidableEq, Repr

/-- Rendered message of a fetch error (Go `err.Error()`). -/
def FetchErr.message : FetchErr → String
  | .http _ m => m
  | .other m => m

/-- Error handling of `viewWorkflowContent` (the earlier revision of
`runView`'s top-level content display, `src/unnamed/part_000` lines 210-223):
a 404 HTTP error becomes a message naming the workflow file's basename and —
when a ref was supplied — suggesting a different ref; any other error is
wrapped generically.  `base` is `workflow.Base()`. -/
def viewWorkflowContent (base : String) (ref : String)
    (fetched : Except FetchErr String) : Except String String :=
  match fetched with
  | Except.error e =>
    match e with
    | FetchErr.http code msg =>
      if code == 404 then
        if ref ≠ "" then
          Except.error ("could not find workflow file " ++ base ++ " on " ++ ref ++ ", try specifying a different ref")
        else
          Except.error ("could not find workflow file " ++ base ++ ", try specifying a branch or tag using `--ref`")
      else Except.error ("could not get workflow file content: " ++ msg)
    | FetchErr.other msg => Except.error ("could not get workflow file content: " ++ msg)
  | Except.ok y => Except.ok y

/-- Error handling of the current `runView` around the top-level content fetch
(`src/main.go` lines 106-109): every fetch error, 404 included, is wrapped as
`failed to get workflow content: <err>` with no filename and no ref hint added. -/
def runViewFetchContent (ref : String) (fetched : Except FetchErr String) :
    Except String String :=
  match fetched with
  | Except.error e => Except.error ("failed to get workflow content: " ++ e.message)
  | Except.ok y => Except.ok y

/-- Whether `pat` occurs at the start of `l` (character lists). -/
def startsWithSeq : List Char → List Char → Bool
  | _, [] => true
  | [], _ :: _ => false
  | x :: xs, p :: ps => x = p && startsWithSeq xs ps

/-- Whether `pat` occurs contiguously anywhere in `l` (character lists). -/
def hasSubSeq : List Char → List Char → Bool
  | l, pat =>
    if startsWithSeq l pat then true
    else
      match l with
      | [] => false
      | _ :: xs => hasSubSeq xs pat

/-- Whether `pat` occurs contiguously in `s` (substring occurrence). -/
def strHasSub (s pat : String) : Bool :=
  hasSubSeq s.data pat.data

/-- Keys of the reference index, in first-insertion order. -/
def keys (m : RefIndex) : List String := m.map Prod.fst

/-- Two parse outcomes of the same workflow text differing only in the
iteration order observed for the decoded jobs map: Go does not specify a map
iteration order, so both describe the same `yaml.Unmarshal` result. -/
def jobsPerm : Except String WorkflowNode → Except String WorkflowNode → Prop
  | Except.ok n1, Except.ok n2 =>
    match n1.jobs, n2.jobs with
    | some a, some b => a.Perm b
    | none, none => True
    | _, _ => False
  | Except.error e1, Except.error e2 => e1 = e2
  | _, _ => False

/-- Two scanned workflows with identical text and record whose jobs maps are
iterated in possibly different orders. -/
def runEquiv (x y : Workflow × Except String WorkflowNode) : Prop :=
  x.1 = y.1 ∧ jobsPerm x.2 y.2

/-- A job the per-job loop passes without error or panic: either a zero
`uses` node, or a `!!str` scalar whose reported line indexes a real line of
the workflow's text. -/
def cleanJob (wf : Workflow) (j : Job) : Prop :=
  j.uses.isZero = true ∨
    (j.uses.kind = scalarNode ∧ j.uses.tag = "!!str" ∧
      ∃ ln, lineAt wf.yaml j.uses.line = some ln)

theorem lookupD_insertRef (m : RefIndex) (k : String) (r : Reference) (k' : String) :
    lookupD (insertRef m k r) k' = lookupD m k' ++ (if k = k' then [r] else []) := by
  induction m with
  | nil =>
    by_cases h : k = k' <;> simp [insertRef, lookupD, h]
  | cons p rest ih =>
    obtain ⟨a, v⟩ := p
    by_cases hak : a = k
    · subst hak
      by_cases hk' : a = k'
      · subst hk'
        simp [insertRef, lookupD]
      · simp [insertRef, lookupD, hk']
    · by_cases hk' : a = k'
      · subst hk'
        have : ¬ k = a := fun h => hak h.symm
        simp [insertRef, lookupD, hak, this]
      · simp [insertRef, lookupD, hak, hk', ih]

theorem keys_insertRef (m : RefIndex) (k : String) (r : Reference) :
    keys (insertRef m k r) = if k ∈ keys m then keys m else keys m ++ [k] := by
  induction m with
  | nil => simp [insertRef, keys]
  | cons p rest ih =>
    obtain ⟨a, v⟩ := p
    by_cases hak : a = k
    · subst hak
      simp [insertRef, keys]
    · have hka : ¬ k = a := fun h => hak h.symm
      have hstep : insertRef ((a, v) :: rest) k r = (a, v) :: insertRef rest k r := by
        simp [insertRef, hak]
      have hkeys : keys ((a, v) :: insertRef rest k r) = a :: keys (insertRef rest k r) := rfl
      have hcons : keys ((a, v) :: rest) = a :: keys rest := rfl
      rw [hstep, hkeys, ih, hcons]
      by_cases hmem : k ∈ keys rest
      · simp [hmem, List.mem_cons, hka]
      · simp [hmem, List.mem_cons, hka]

theorem keys_nodup_insertRef (m : RefIndex) (k : String) (r : Reference)
    (h : (keys m).Nodup) : (keys (insertRef m k r)).Nodup := by
  rw [keys_insertRef]
  by_cases hmem : k ∈ keys m
  · simpa [hmem] using h
  · simp [hmem, List.nodup_append, h]

theorem lookupD_ne_nil_mem (m : RefIndex) (k : String) (h : lookupD m k ≠ []) :
    k ∈ keys m := by
  induction m with
  | nil => simp [lookupD] at h
  | cons p rest ih =>
    obtain ⟨a, v⟩ := p
    by_cases hak : a = k
    · subst hak; simp [keys]
    · simp only [lookupD, if_neg hak] at h
      have := ih h
      simp only [keys, List.map_cons]
      exact List.mem_cons_of_mem _ this

theorem nonempty_insertRef (m : RefIndex) (k : String) (r : Reference)
    (h : ∀ p ∈ m, p.2 ≠ ([] : List Reference)) :
    ∀ p ∈ insertRef m k r, p.2 ≠ ([] : List Reference) := by
  induction m with
  | nil =>
    intro p hp
    simp [insertRef] at hp
    subst hp
    simp
  | cons q rest ih =>
    obtain ⟨a, v⟩ := q
    intro p hp
    by_cases hak : a = k
    · subst hak
      simp [insertRef] at hp
      rcases hp with hp | hp
      · subst hp; simp
      · exact h p (by simp [hp])
    · simp [insertRef, hak] at hp
      rcases hp with hp | hp
      · subst hp
        exact h (a, v) (by simp)
      · exact ih (fun q hq => h q (by simp [hq])) p hp

/-- Inversion of a successful `processJob` step: the job was either skipped
(zero `uses` node) or recorded exactly as at `references.go` lines 58-62. -/
theorem processJob_ok (wf : Workflow) (j : Job) (m m' : RefIndex)
    (h : processJob wf j m = some (Except.ok m')) :
    (j.uses.isZero = true ∧ m' = m) ∨
    (j.uses.isZero = false ∧
      ∃ ln, lineAt wf.yaml j.uses.line = some ln ∧
        m' = insertRef m j.uses.value ⟨wf.filename, ln, j.uses.line⟩) := by
  unfold processJob at h
  by_cases hz : j.uses.isZero
  · left
    simp [hz] at h
    exact ⟨hz, h.symm⟩
  · right
    refine ⟨by simpa using hz, ?_⟩
    simp [hz] at h
    by_cases hbad : j.uses.kind ≠ scalarNode ∨ j.uses.tag ≠ "!!str"
    · simp [hbad] at h
    · simp [hbad] at h
      cases hline : lineAt wf.yaml j.uses.line with
      | none => rw [hline] at h; cases h
      | some ln =>
        rw [hline] at h
        simp at h
        exact ⟨ln, rfl, h.symm⟩

theorem processJob_ok_contrib (wf : Workflow) (j : Job) (m m' : RefIndex)
    (h : processJob wf j m = some (Except.ok m')) (k : String) :
    lookupD m' k = lookupD m k ++
      (match jobContrib wf j with
       | some (k', r) => if k' = k then [r] else []
       | none => []) := by
  rcases processJob_ok wf j m m' h with ⟨hz, hm⟩ | ⟨hz, ln, hline, hm⟩
  · subst hm
    simp [jobContrib, hz]
  · subst hm
    rw [lookupD_insertRef]
    simp [jobContrib, hz, hline]

/-- Characterization of a successful jobs loop: each key's list grows by the
jobs' contributions in iteration order. -/
theorem processJobs_ok_lookupD (wf : Workflow) (js : List (String × Job)) :
    ∀ m m', processJobs wf js m = some (Except.ok m') →
    ∀ k, lookupD m' k = lookupD m k ++ filterKey k (jobRefs wf js) := by
  induction js with
  | nil =>
    intro m m' h k
    simp [processJobs] at h
    subst h
    simp [jobRefs, filterKey]
  | cons p rest ih =>
    intro m m' h k
    obtain ⟨nm, j⟩ := p
    simp only [processJobs] at h
    cases hpj : processJob wf j m with
    | none => rw [hpj] at h; cases h
    | some r =>
      cases r with
      | error e => rw [hpj] at h; simp at h
      | ok m1 =>
        rw [hpj] at h
        have h1 := processJob_ok_contrib wf j m m1 hpj k
        have h2 := ih m1 m' h k
        rw [h2, h1, List.append_assoc]
        congr 1
        cases hc : jobContrib wf j with
        | none => simp [jobRefs, filterKey, List.filterMap_cons, hc]
        | some q =>
          obtain ⟨k', r⟩ := q
          by_cases hkk : k' = k <;>
            simp [jobRefs, filterKey, List.filterMap_cons, hc, hkk]

/-- Characterization of a successful scan: each key's list is exactly the
stream of contributions under that key, workflow by workflow in scan order,
jobs in iteration order. -/
theorem getReferencesAux_ok_lookupD :
    ∀ (wfs : List (Workflow × Except String WorkflowNode)) (m m' : RefIndex),
    getReferencesAux wfs m = some (Except.ok m') →
    ∀ k, lookupD m' k = lookupD m k ++ filterKey k (allContribs wfs) := by
  intro wfs
  induction wfs with
  | nil =>
    intro m m' h k
    simp [getReferencesAux] at h
    subst h
    simp [allContribs, filterKey]
  | cons p rest ih =>
    intro m m' h k
    obtain ⟨wf, pr⟩ := p
    cases pr with
    | error e => simp [getReferencesAux] at h
    | ok node =>
      simp only [getReferencesAux] at h
      split at h
      · next hjobs =>
        have := ih m m' h k
        simpa [allContribs, wfContrib, hjobs] using this
      · next js hjobs =>
        split at h
        · simp at h
        · simp at h
        · next m1 hpj =>
          have h1 := processJobs_ok_lookupD wf js m m1 hpj k
          have h2 := ih m1 m' h k
          rw [h2, h1, List.append_assoc]
          congr 1
          simp [allContribs, wfContrib, hjobs, filterKey, List.flatten_cons,
            List.filterMap_append]

/-- Sequencing lemma: scanning `xs ++ ys` behaves as scanning `xs` and, only
when that ended without error or panic, continuing with `ys`. -/
theorem getReferencesAux_append (xs ys : List (Workflow × Except String WorkflowNode)) :
    ∀ m, getReferencesAux (xs ++ ys) m =
      match getReferencesAux xs m with
      | some (Except.ok m') => getReferencesAux ys m'
      | r => r := by
  induction xs with
  | nil => intro m; simp [getReferencesAux]
  | cons p rest ih =>
    intro m
    obtain ⟨wf, pr⟩ := p
    cases pr with
    | error e => simp [getReferencesAux]
    | ok node =>
      simp only [List.cons_append, getReferencesAux]
      split
      · exact ih m
      · split
        · rfl
        · rfl
        · exact ih _

theorem processJobs_nonempty (wf : Workflow) (js : List (String × Job)) :
    ∀ m m', processJobs wf js m = some (Except.ok m') →
    (∀ p ∈ m, p.2 ≠ ([] : List Reference)) → ∀ p ∈ m', p.2 ≠ ([] : List Reference) := by
  induction js with
  | nil =>
    intro m m' h hm
    simp [processJobs] at h
    subst h
    exact hm
  | cons p rest ih =>
    intro m m' h hm
    obtain ⟨nm, j⟩ := p
    simp only [processJobs] at h
    split at h
    · simp at h
    · simp at h
    · next m1 hpj =>
      refine ih m1 m' h ?_
      rcases processJob_ok wf j m m1 hpj with ⟨_, hm1⟩ | ⟨_, ln, _, hm1⟩
      · subst hm1; exact hm
      · subst hm1; exact nonempty_insertRef m _ _ hm

theorem getReferencesAux_nonempty :
    ∀ (wfs : List (Workflow × Except String WorkflowNode)) (m m' : RefIndex),
    getReferencesAux wfs m = some (Except.ok m') →
    (∀ p ∈ m, p.2 ≠ ([] : List Reference)) → ∀ p ∈ m', p.2 ≠ ([] : List Reference) := by
  intro wfs
  induction wfs with
  | nil =>
    intro m m' h hm
    simp [getReferencesAux] at h
    subst h
    exact hm
  | cons p rest ih =>
    intro m m' h hm
    obtain ⟨wf, pr⟩ := p
    cases pr with
    | error e => simp [getReferencesAux] at h
    | ok node =>
      simp only [getReferencesAux] at h
      split at h
      · exact ih m m' h hm
      · next js hjobs =>
        split at h
        · simp at h
        · simp at h
        · next m1 hpj => exact ih m1 m' h (processJobs_nonempty wf js m m1 hpj hm)

theorem processJobs_keys_nodup (wf : Workflow) (js : List (String × Job)) :
    ∀ m m', processJobs wf js m = some (Except.ok m') →
    (keys m).Nodup → (keys m').Nodup := by
  induction js with
  | nil =>
    intro m m' h hm
    simp [processJobs] at h
    subst h
    exact hm
  | cons p rest ih =>
    intro m m' h hm
    obtain ⟨nm, j⟩ := p
    simp only [processJobs] at h
    split at h
    · simp at h
    · simp at h
    · next m1 hpj =>
      refine ih m1 m' h ?_
      rcases processJob_ok wf j m m1 hpj with ⟨_, hm1⟩ | ⟨_, ln, _, hm1⟩
      · subst hm1; exact hm
      · subst hm1; exact keys_nodup_insertRef m _ _ hm

theorem getReferencesAux_keys_nodup :
    ∀ (wfs : List (Workflow × Except String WorkflowNode)) (m m' : RefIndex),
    getReferencesAux wfs m = some (Except.ok m') →
    (keys m).Nodup → (keys m').Nodup := by
  intro wfs
  induction wfs with
  | nil =>
    intro m m' h hm
    simp [getReferencesAux] at h
    subst h
    exact hm
  | cons p rest ih =>
    intro m m' h hm
    obtain ⟨wf, pr⟩ := p
    cases pr with
    | error e => simp [getReferencesAux] at h
    | ok node =>
      simp only [getReferencesAux] at h
      split at h
      · exact ih m m' h hm
      · next js hjobs =>
        split at h
        · simp at h
        · simp at h
        · next m1 hpj => exact ih m1 m' h (processJobs_keys_nodup wf js m m1 hpj hm)

theorem wfContrib_perm (x y : Workflow × Except String WorkflowNode)
    (h : runEquiv x y) : (wfContrib x).Perm (wfContrib y) := by
  obtain ⟨wx, px⟩ := x
  obtain ⟨wy, py⟩ := y
  obtain ⟨hw, hp⟩ := h
  simp at hw
  subst hw
  cases px with
  | error e1 =>
    cases py with
    | error e2 => simp [wfContrib]
    | ok n2 => simp [jobsPerm] at hp
  | ok n1 =>
    cases py with
    | error e2 => simp [jobsPerm] at hp
    | ok n2 =>
      simp only [jobsPerm] at hp
      cases h1 : n1.jobs with
      | none =>
        cases h2 : n2.jobs with
        | none => simp [wfContrib, h1, h2]
        | some b => rw [h1, h2] at hp; simp at hp
      | some a =>
        cases h2 : n2.jobs with
        | none => rw [h1, h2] at hp; simp at hp
        | some b =>
          rw [h1, h2] at hp
          simp only [wfContrib, h1, h2, jobRefs]
          exact hp.filterMap _

theorem allContribs_perm (wfs1 wfs2 : List (Workflow × Except String WorkflowNode))
    (h : List.Forall₂ runEquiv wfs1 wfs2) :
    (allContribs wfs1).Perm (allContribs wfs2) := by
  induction h with
  | nil => simp [allContribs]
  | cons hxy hrest ih =>
    simp only [allContribs, List.map_cons, List.flatten_cons]
    exact (wfContrib_perm _ _ hxy).append ih

theorem processJobs_append (wf : Workflow) (xs ys : List (String × Job)) :
    ∀ m, processJobs wf (xs ++ ys) m =
      match processJobs wf xs m with
      | some (Except.ok m') => processJobs wf ys m'
      | r => r := by
  induction xs with
  | nil => intro m; simp [processJobs]
  | cons p rest ih =>
    intro m
    obtain ⟨nm, j⟩ := p
    simp only [List.cons_append, processJobs]
    split
    · rfl
    · rfl
    · exact ih _

theorem processJobs_clean_ok (wf : Workflow) (pre : List (String × Job)) :
    ∀ m, (∀ p ∈ pre, cleanJob wf p.2) →
    ∃ m₁, processJobs wf pre m = some (Except.ok m₁) := by
  induction pre with
  | nil => intro m _; exact ⟨m, rfl⟩
  | cons p rest ih =>
    intro m h
    obtain ⟨nm, j⟩ := p
    have hj := h (nm, j) (by simp)
    rcases hj with hz | ⟨hkind, htag, ln, hline⟩
    · have hstep : processJob wf j m = some (Except.ok m) := by
        simp [processJob, hz]
      obtain ⟨m₁, hm₁⟩ := ih m (fun q hq => h q (by simp [hq]))
      refine ⟨m₁, ?_⟩
      simp only [processJobs, hstep]
      exact hm₁
    · have hkind' : j.uses.kind = scalarNode := hkind
      have htag' : j.uses.tag = "!!str" := htag
      have hline' : lineAt wf.yaml j.uses.line = some ln := hline
      have hz : j.uses.isZero = false := by
        simp [YamlNode.isZero, hkind', scalarNode]
      have hnotbad : ¬ (j.uses.kind ≠ scalarNode ∨ j.uses.tag ≠ "!!str") := by
        simp [hkind', htag']
      have hstep : processJob wf j m =
          some (Except.ok (insertRef m j.uses.value ⟨wf.filename, ln, j.uses.line⟩)) := by
        simp [processJob, hz, hnotbad, hline']
      obtain ⟨m₁, hm₁⟩ := ih _ (fun q hq => h q (by simp [hq]))
      refine ⟨m₁, ?_⟩
      simp only [processJobs, hstep]
      exact hm₁

theorem filterKey_flatten (k : String) (L : List (List (String × Reference))) :
    filterKey k L.flatten = (L.map (filterKey k)).flatten := by
  induction L with
  | nil => simp [filterKey]
  | cons l rest ih =>
    simp only [List.flatten_cons, List.map_cons, filterKey, List.filterMap_append]
    rw [← ih]
    rfl

/-- C1: for a workflow of the scanned set whose parsed jobs map contains a
job whose `uses` node is a plain `!!str` scalar reported at 1-based line `L`
of the raw text, a successful `GetReferences` run records, under that job's
invocation string, a `Reference` carrying the workflow's filename, the
verbatim text of line `L` of the original text — obtained by splitting the
document on line breaks and indexing position `L - 1` — and the line number
`L` itself. -/
theorem C1_line_provenance
    (wfs : List (Workflow × Except String WorkflowNode))
    (refs : List ReferencedWorkflow) (m : RefIndex)
    (wf : Workflow) (node : WorkflowNode) (js : List (String × Job))
    (nm : String) (j : Job) (L : Nat)
    (hok : GetReferences wfs refs = some (Except.ok m))
    (hwf : (wf, Except.ok node) ∈ wfs)
    (hjs : node.jobs = some js)
    (hj : (nm, j) ∈ js)
    (hkind : j.uses.kind = scalarNode)
    (htag : j.uses.tag = "!!str")
    (hline : j.uses.line = L)
    (hrange : 1 ≤ L ∧ L - 1 < (splitLines wf.yaml).length) :
    (⟨wf.filename, (splitLines wf.yaml).get ⟨L - 1, hrange.2⟩, L⟩ : Reference)
      ∈ lookupD m j.uses.value := by
  have hz : j.uses.isZero = false := by
    simp [YamlNode.isZero, hkind, scalarNode]
  have hlineAt : lineAt wf.yaml L = some ((splitLines wf.yaml).get ⟨L - 1, hrange.2⟩) := by
    simp [lineAt, hrange]
  have hcontrib : jobContrib wf j =
      some (j.uses.value,
        ⟨wf.filename, (splitLines wf.yaml).get ⟨L - 1, hrange.2⟩, L⟩) := by
    simp [jobContrib, hz, hline, hlineAt]
  have hmem1 : (j.uses.value,
      (⟨wf.filename, (splitLines wf.yaml).get ⟨L - 1, hrange.2⟩, L⟩ : Reference))
      ∈ jobRefs wf js :=
    List.mem_filterMap.mpr ⟨(nm, j), hj, hcontrib⟩
  have hmem2 : (j.uses.value,
      (⟨wf.filename, (splitLines wf.yaml).get ⟨L - 1, hrange.2⟩, L⟩ : Reference))
      ∈ allContribs wfs :=
    List.mem_flatten.mpr
      ⟨jobRefs wf js,
        List.mem_map.mpr ⟨(wf, Except.ok node), hwf, by simp [wfContrib, hjs]⟩, hmem1⟩
  have hmem3 : (⟨wf.filename, (splitLines wf.yaml).get ⟨L - 1, hrange.2⟩, L⟩ : Reference)
      ∈ filterKey j.uses.value (allContribs wfs) :=
    List.mem_filterMap.mpr
      ⟨(j.uses.value, ⟨wf.filename, (splitLines wf.yaml).get ⟨L - 1, hrange.2⟩, L⟩),
        hmem2, by simp⟩
  have hchar := getReferencesAux_ok_lookupD wfs [] m hok j.uses.value
  simp only [lookupD, List.nil_append] at hchar
  rw [hchar]
  exact hmem3

/-- C1 witness: a one-workflow run with `uses: x@v1` on line 3. -/
theorem C1_line_provenance_witness :
    (⟨"ci.yml", "    uses: x@v1", 3⟩ : Reference)
      ∈ lookupD [("x@v1", [⟨"ci.yml", "    uses: x@v1", 3⟩])] "x@v1" :=
  C1_line_provenance
    [({ name := "CI", refPath := ".github/workflows/ci.yml", filename := "ci.yml",
        ref := "main", sha := "s", yaml := "jobs:\n  a:\n    uses: x@v1" },
      Except.ok ⟨some [("a", ⟨⟨8, "!!str", "x@v1", 3⟩⟩)]⟩)] []
    [("x@v1", [⟨"ci.yml", "    uses: x@v1", 3⟩])]
    { name := "CI", refPath := ".github/workflows/ci.yml", filename := "ci.yml",
      ref := "main", sha := "s", yaml := "jobs:\n  a:\n    uses: x@v1" }
    ⟨some [("a", ⟨⟨8, "!!str", "x@v1", 3⟩⟩)]⟩
    [("a", ⟨⟨8, "!!str", "x@v1", 3⟩⟩)]
    "a" ⟨⟨8, "!!str", "x@v1", 3⟩⟩ 3
    (by decide) (by decide) rfl (by decide) rfl rfl rfl (by decide)

/-- C4: when a job's `uses` field is present (non-zero node) but not a plain
`!!str` scalar — e.g. a mapping or sequence node — and the jobs before it in
iteration order are unproblematic, extraction fails with the
`unexpected node type` error carrying the actual node kind instead of
silently skipping the job. -/
theorem C4_unexpected_node_type
    (wf : Workflow) (node : WorkflowNode)
    (pre : List (String × Job)) (nm : String) (j : Job) (post : List (String × Job))
    (refs : List ReferencedWorkflow)
    (hjs : node.jobs = some (pre ++ (nm, j) :: post))
    (hclean : ∀ p ∈ pre, cleanJob wf p.2)
    (hnz : j.uses.isZero = false)
    (hbad : j.uses.kind ≠ scalarNode ∨ j.uses.tag ≠ "!!str") :
    GetReferences [(wf, Except.ok node)] refs =
      some (Except.error ("unexpected node type for uses: " ++ toString j.uses.kind)) := by
  obtain ⟨m₁, hm₁⟩ := processJobs_clean_ok wf pre [] hclean
  have hbadstep : processJob wf j m₁ =
      some (Except.error ("unexpected node type for uses: " ++ toString j.uses.kind)) := by
    simp [processJob, hnz, hbad]
  have hjobs : processJobs wf (pre ++ (nm, j) :: post) [] =
      some (Except.error ("unexpected node type for uses: " ++ toString j.uses.kind)) := by
    rw [processJobs_append, hm₁]
    simp only [processJobs, hbadstep]
  show getReferencesAux [(wf, Except.ok node)] [] = _
  simp only [getReferencesAux, hjs, hjobs]

/-- C4 witness: a job whose `uses` is a mapping node (kind 4). -/
theorem C4_unexpected_node_type_witness :
    GetReferences
      [({ name := "CI", refPath := "rp", filename := "ci.yml", ref := "main", sha := "s",
          yaml := "jobs:\n  deploy:\n    uses:\n      nested: map" },
        Except.ok ⟨some [("deploy", ⟨⟨4, "!!map", "", 4⟩⟩)]⟩)] [] =
      some (Except.error "unexpected node type for uses: 4") :=
  C4_unexpected_node_type
    { name := "CI", refPath := "rp", filename := "ci.yml", ref := "main", sha := "s",
      yaml := "jobs:\n  deploy:\n    uses:\n      nested: map" }
    ⟨some [("deploy", ⟨⟨4, "!!map", "", 4⟩⟩)]⟩
    [] "deploy" ⟨⟨4, "!!map", "", 4⟩⟩ [] []
    rfl (by simp) (by decide) (Or.inl (by decide))

/-- C5: aggregation aborts on the first extractor error: when scanning a
prefix of the workflow set already fails (a YAML unmarshal error or a
node-type error), scanning the whole set fails with that same first error,
and no reference index — partial or otherwise — is returned. -/
theorem C5_first_error_aborts
    (xs ys : List (Workflow × Except String WorkflowNode))
    (refs : List ReferencedWorkflow) (e : String)
    (h : GetReferences xs refs = some (Except.error e)) :
    GetReferences (xs ++ ys) refs = some (Except.error e) ∧
      ∀ m : RefIndex, GetReferences (xs ++ ys) refs ≠ some (Except.ok m) := by
  have h' : getReferencesAux xs [] = some (Except.error e) := h
  have habort : getReferencesAux (xs ++ ys) [] = some (Except.error e) := by
    rw [getReferencesAux_append, h']
  refine ⟨habort, fun m hc => ?_⟩
  rw [show GetReferences (xs ++ ys) refs = getReferencesAux (xs ++ ys) [] from rfl,
    habort] at hc
  simp at hc

/-- C5 witness: a malformed first workflow aborts the scan of a two-workflow
set with the unmarshal error; the healthy second workflow contributes
nothing. -/
theorem C5_first_error_aborts_witness :
    GetReferences
      ([({ name := "Bad", refPath := "rp", filename := "bad.yml", ref := "main", sha := "s",
           yaml := "jobs: [" }, Except.error "yaml: line 1: did not find expected node content")] ++
       [({ name := "OK", refPath := "rp2", filename := "ok.yml", ref := "main", sha := "s2",
           yaml := "jobs:\n  b:\n    uses: y@v2" },
         Except.ok ⟨some [("b", ⟨⟨8, "!!str", "y@v2", 3⟩⟩)]⟩)]) [] =
      some (Except.error "failed to unmarshal yaml: yaml: line 1: did not find expected node content") ∧
    ∀ m : RefIndex,
      GetReferences
        ([({ name := "Bad", refPath := "rp", filename := "bad.yml", ref := "main", sha := "s",
             yaml := "jobs: [" }, Except.error "yaml: line 1: did not find expected node content")] ++
         [({ name := "OK", refPath := "rp2", filename := "ok.yml", ref := "main", sha := "s2",
             yaml := "jobs:\n  b:\n    uses: y@v2" },
           Except.ok ⟨some [("b", ⟨⟨8, "!!str", "y@v2", 3⟩⟩)]⟩)]) [] ≠
        some (Except.ok m) :=
  C5_first_error_aborts
    [({ name := "Bad", refPath := "rp", filename := "bad.yml", ref := "main", sha := "s",
        yaml := "jobs: [" }, Except.error "yaml: line 1: did not find expected node content")]
    [({ name := "OK", refPath := "rp2", filename := "ok.yml", ref := "main", sha := "s2",
        yaml := "jobs:\n  b:\n    uses: y@v2" },
      Except.ok ⟨some [("b", ⟨⟨8, "!!str", "y@v2", 3⟩⟩)]⟩)]
    [] "failed to unmarshal yaml: yaml: line 1: did not find expected node content"
    (by decide)

/-- C6: when, across the scanned workflow set, exactly two jobs (in the same
workflow or in two distinct workflows) contribute the identical invocation
string — the contribution stream under key `s` being exactly `[r1, r2]`,
each `Reference` built from its own workflow's filename and line — a
successful run yields exactly one index entry for `s`, holding exactly those
two references: no deduplication. -/
theorem C6_two_call_sites
    (wfs : List (Workflow × Except String WorkflowNode))
    (refs : List ReferencedWorkflow) (m : RefIndex)
    (s : String) (r1 r2 : Reference)
    (hok : GetReferences wfs refs = some (Except.ok m))
    (htwo : filterKey s (allContribs wfs) = [r1, r2]) :
    lookupD m s = [r1, r2] ∧ (keys m).count s = 1 := by
  have hchar := getReferencesAux_ok_lookupD wfs [] m hok s
  simp only [lookupD, List.nil_append] at hchar
  rw [htwo] at hchar
  refine ⟨hchar, ?_⟩
  have hnodup : (keys m).Nodup := getReferencesAux_keys_nodup wfs [] m hok (by simp [keys])
  have hmem : s ∈ keys m := lookupD_ne_nil_mem m s (by rw [hchar]; simp)
  exact List.count_eq_one_of_mem hnodup hmem

/-- C6 witness: two workflows each with one job calling the same string. -/
theorem C6_two_call_sites_witness :
    lookupD
      [("shared/deploy.yml@v1",
        [⟨"ci.yml", "    uses: shared/deploy.yml@v1", 3⟩,
         ⟨"release.yml", "      uses: shared/deploy.yml@v1", 4⟩])]
      "shared/deploy.yml@v1" =
      [⟨"ci.yml", "    uses: shared/deploy.yml@v1", 3⟩,
       ⟨"release.yml", "      uses: shared/deploy.yml@v1", 4⟩] ∧
    (keys [("shared/deploy.yml@v1",
      [(⟨"ci.yml", "    uses: shared/deploy.yml@v1", 3⟩ : Reference),
       ⟨"release.yml", "      uses: shared/deploy.yml@v1", 4⟩])]).count
        "shared/deploy.yml@v1" = 1 :=
  C6_two_call_sites
    [({ name := "CI", refPath := "rp1", filename := "ci.yml", ref := "main", sha := "s1",
        yaml := "jobs:\n  a:\n    uses: shared/deploy.yml@v1" },
      Except.ok ⟨some [("a", ⟨⟨8, "!!str", "shared/deploy.yml@v1", 3⟩⟩)]⟩),
     ({ name := "Release", refPath := "rp2", filename := "release.yml", ref := "main", sha := "s2",
        yaml := "x: 1\njobs:\n  b:\n      uses: shared/deploy.yml@v1" },
      Except.ok ⟨some [("b", ⟨⟨8, "!!str", "shared/deploy.yml@v1", 4⟩⟩)]⟩)] []
    [("shared/deploy.yml@v1",
      [⟨"ci.yml", "    uses: shared/deploy.yml@v1", 3⟩,
       ⟨"release.yml", "      uses: shared/deploy.yml@v1", 4⟩])]
    "shared/deploy.yml@v1"
    ⟨"ci.yml", "    uses: shared/deploy.yml@v1", 3⟩
    ⟨"release.yml", "      uses: shared/deploy.yml@v1", 4⟩
    (by decide) (by decide)

/-- C10: in every successfully returned reference index, every entry's list
of references is non-empty — a key is only ever created when a reference is
immediately appended to it. -/
theorem C10_nonempty_entries
    (wfs : List (Workflow × Except String WorkflowNode))
    (refs : List ReferencedWorkflow) (m : RefIndex)
    (h : GetReferences wfs refs = some (Except.ok m)) :
    ∀ p ∈ m, p.2 ≠ ([] : List Reference) :=
  getReferencesAux_nonempty wfs [] m h (by simp)

/-- C10 witness: the single entry of a concrete run is non-empty. -/
theorem C10_nonempty_entries_witness :
    ([(⟨"main.yml", "    uses: w/z.yml@v3", 3⟩ : Reference)]) ≠ ([] : List Reference) :=
  C10_nonempty_entries
    [({ name := "Main", refPath := "rp", filename := "main.yml", ref := "main", sha := "s",
        yaml := "jobs:\n  c:\n    uses: w/z.yml@v3" },
      Except.ok ⟨some [("c", ⟨⟨8, "!!str", "w/z.yml@v3", 3⟩⟩)]⟩)] []
    [("w/z.yml@v3", [⟨"main.yml", "    uses: w/z.yml@v3", 3⟩])]
    (by decide)
    ("w/z.yml@v3", [⟨"main.yml", "    uses: w/z.yml@v3", 3⟩])
    (by decide)

/-- C2 counterexample: identical input text, two runs.  The workflow text
declares jobs `one` (line 3) and `two` (line 5), both with `uses: dup@v1`;
the decoded jobs map holds the same two bindings in both runs (first
conjunct: the two association lists are permutations of one another, i.e.
they are the same map), yet iterating the map in the two orders Go is free
to choose yields different outputs: the same key's list carries the two
references in different orders.  `GetReferences` is therefore not
deterministic as a function of the input text alone. -/
theorem C2_determinism_counterexample :
    ([("one", (⟨⟨8, "!!str", "dup@v1", 3⟩⟩ : Job)), ("two", ⟨⟨8, "!!str", "dup@v1", 5⟩⟩)]).Perm
      [("two", ⟨⟨8, "!!str", "dup@v1", 5⟩⟩), ("one", ⟨⟨8, "!!str", "dup@v1", 3⟩⟩)] ∧
    GetReferences
      [({ name := "CI", refPath := "rp", filename := "ci.yml", ref := "main", sha := "s",
          yaml := "jobs:\n  one:\n    uses: dup@v1\n  two:\n    uses: dup@v1" },
        Except.ok ⟨some [("one", ⟨⟨8, "!!str", "dup@v1", 3⟩⟩), ("two", ⟨⟨8, "!!str", "dup@v1", 5⟩⟩)]⟩)] [] ≠
    GetReferences
      [({ name := "CI", refPath := "rp", filename := "ci.yml", ref := "main", sha := "s",
          yaml := "jobs:\n  one:\n    uses: dup@v1\n  two:\n    uses: dup@v1" },
        Except.ok ⟨some [("two", ⟨⟨8, "!!str", "dup@v1", 5⟩⟩), ("one", ⟨⟨8, "!!str", "dup@v1", 3⟩⟩)]⟩)] [] :=
  ⟨by decide, by decide⟩

/-- C2 amended: `GetReferences` is deterministic up to the iteration order of
each workflow's jobs map: two successful runs on identical input (same
workflow records, parse outcomes equal up to a permutation of each decoded
jobs map) agree on every key, up to a permutation of the key's reference
list; references contributed by distinct jobs of one workflow may appear in
either relative order. -/
theorem C2_determinism_up_to_job_order
    (wfs1 wfs2 : List (Workflow × Except String WorkflowNode))
    (refs : List ReferencedWorkflow) (m1 m2 : RefIndex)
    (hperm : List.Forall₂ runEquiv wfs1 wfs2)
    (h1 : GetReferences wfs1 refs = some (Except.ok m1))
    (h2 : GetReferences wfs2 refs = some (Except.ok m2)) (k : String) :
    (lookupD m1 k).Perm (lookupD m2 k) := by
  have e1 := getReferencesAux_ok_lookupD wfs1 [] m1 h1 k
  have e2 := getReferencesAux_ok_lookupD wfs2 [] m2 h2 k
  simp only [lookupD, List.nil_append] at e1 e2
  rw [e1, e2]
  exact (allContribs_perm _ _ hperm).filterMap _

/-- C2 amended witness: the two runs of the counterexample input are related
by a jobs-map permutation and their outputs under the shared key are
permutations of each other. -/
theorem C2_determinism_up_to_job_order_witness :
    (lookupD
      [("dup@v1", [⟨"ci.yml", "    uses: dup@v1", 3⟩, ⟨"ci.yml", "    uses: dup@v1", 5⟩])]
      "dup@v1").Perm
    (lookupD
      [("dup@v1", [⟨"ci.yml", "    uses: dup@v1", 5⟩, ⟨"ci.yml", "    uses: dup@v1", 3⟩])]
      "dup@v1") :=
  C2_determinism_up_to_job_order
    [({ name := "CI", refPath := "rp", filename := "ci.yml", ref := "main", sha := "s",
        yaml := "jobs:\n  one:\n    uses: dup@v1\n  two:\n    uses: dup@v1" },
      Except.ok ⟨some [("one", ⟨⟨8, "!!str", "dup@v1", 3⟩⟩), ("two", ⟨⟨8, "!!str", "dup@v1", 5⟩⟩)]⟩)]
    [({ name := "CI", refPath := "rp", filename := "ci.yml", ref := "main", sha := "s",
        yaml := "jobs:\n  one:\n    uses: dup@v1\n  two:\n    uses: dup@v1" },
      Except.ok ⟨some [("two", ⟨⟨8, "!!str", "dup@v1", 5⟩⟩), ("one", ⟨⟨8, "!!str", "dup@v1", 3⟩⟩)]⟩)]
    []
    [("dup@v1", [⟨"ci.yml", "    uses: dup@v1", 3⟩, ⟨"ci.yml", "    uses: dup@v1", 5⟩])]
    [("dup@v1", [⟨"ci.yml", "    uses: dup@v1", 5⟩, ⟨"ci.yml", "    uses: dup@v1", 3⟩])]
    (List.Forall₂.cons ⟨rfl, (by decide : List.Perm _ _)⟩ List.Forall₂.nil)
    (by decide) (by decide) "dup@v1"

/-- C7 counterexample: a workflow whose document declares job `alpha`
(`uses` on line 3) before job `beta` (`uses` on line 5).  A run in which the
Go jobs map happens to iterate `beta` first is a legitimate run and yields
the index entry `[line-5 reference, line-3 reference]`, which differs from
the insertion order of a stable parse pass `[line-3 reference, line-5
reference]`: within one workflow the claimed insertion ordering does not
hold. -/
theorem C7_insertion_order_counterexample :
    GetReferences
      [({ name := "CI", refPath := "rp", filename := "top.yml", ref := "main", sha := "s",
          yaml := "jobs:\n  alpha:\n    uses: shared/wf.yml@v2\n  beta:\n    uses: shared/wf.yml@v2" },
        Except.ok ⟨some [("beta", ⟨⟨8, "!!str", "shared/wf.yml@v2", 5⟩⟩),
                         ("alpha", ⟨⟨8, "!!str", "shared/wf.yml@v2", 3⟩⟩)]⟩)] [] =
      some (Except.ok
        [("shared/wf.yml@v2",
          [⟨"top.yml", "    uses: shared/wf.yml@v2", 5⟩,
           ⟨"top.yml", "    uses: shared/wf.yml@v2", 3⟩])]) ∧
    [(⟨"top.yml", "    uses: shared/wf.yml@v2", 5⟩ : Reference),
     ⟨"top.yml", "    uses: shared/wf.yml@v2", 3⟩] ≠
      [⟨"top.yml", "    uses: shared/wf.yml@v2", 3⟩,
       ⟨"top.yml", "    uses: shared/wf.yml@v2", 5⟩] :=
  ⟨by decide, by decide⟩

/-- C7 amended: in every successfully returned index, each entry's list is
the concatenation, workflow by workflow in scan order (the scan order being
the top-level workflow first, then the declared referenced workflows in
their listed order, per the construction at `main.go` line 166), of that
workflow's contributions under the key; within one workflow the
contributions appear in the jobs map's iteration order, which Go leaves
unspecified — not necessarily document/insertion order. -/
theorem C7_scan_order
    (wfs : List (Workflow × Except String WorkflowNode))
    (refs : List ReferencedWorkflow) (m : RefIndex)
    (hok : GetReferences wfs refs = some (Except.ok m)) (k : String) :
    lookupD m k = (wfs.map (fun w => filterKey k (wfContrib w))).flatten := by
  have hchar := getReferencesAux_ok_lookupD wfs [] m hok k
  simp only [lookupD, List.nil_append] at hchar
  rw [hchar]
  show filterKey k (allContribs wfs) = _
  rw [allContribs, filterKey_flatten, List.map_map]
  rfl

/-- C7 amended witness: a two-workflow scan; the key's list is the top-level
workflow's contribution followed by the referenced workflow's. -/
theorem C7_scan_order_witness :
    lookupD
      [("org/shared.yml@v9",
        [⟨"first.yml", "    uses: org/shared.yml@v9", 3⟩,
         ⟨"second.yml", "    uses: org/shared.yml@v9", 3⟩])]
      "org/shared.yml@v9" =
      ([({ name := "First", refPath := "rpa", filename := "first.yml", ref := "main", sha := "sa",
           yaml := "jobs:\n  j1:\n    uses: org/shared.yml@v9" },
         (Except.ok ⟨some [("j1", ⟨⟨8, "!!str", "org/shared.yml@v9", 3⟩⟩)]⟩ : Except String WorkflowNode)),
        ({ name := "Second", refPath := "rpb", filename := "second.yml", ref := "v9", sha := "sb",
           yaml := "jobs:\n  j2:\n    uses: org/shared.yml@v9" },
         Except.ok ⟨some [("j2", ⟨⟨8, "!!str", "org/shared.yml@v9", 3⟩⟩)]⟩)].map
        (fun w => filterKey "org/shared.yml@v9" (wfContrib w))).flatten :=
  C7_scan_order
    [({ name := "First", refPath := "rpa", filename := "first.yml", ref := "main", sha := "sa",
        yaml := "jobs:\n  j1:\n    uses: org/shared.yml@v9" },
      Except.ok ⟨some [("j1", ⟨⟨8, "!!str", "org/shared.yml@v9", 3⟩⟩)]⟩),
     ({ name := "Second", refPath := "rpb", filename := "second.yml", ref := "v9", sha := "sb",
        yaml := "jobs:\n  j2:\n    uses: org/shared.yml@v9" },
      Except.ok ⟨some [("j2", ⟨⟨8, "!!str", "org/shared.yml@v9", 3⟩⟩)]⟩)] []
    [("org/shared.yml@v9",
      [⟨"first.yml", "    uses: org/shared.yml@v9", 3⟩,
       ⟨"second.yml", "    uses: org/shared.yml@v9", 3⟩])]
    (by decide) "org/shared.yml@v9"

/-- C3: evaluation of the referenced-workflow path parse (`main.go`
lines 129-136) at the claim's failure inputs.  First conjunct: on an
invocation string with no `@`, the parse is `none`, i.e. the Go code panics
with an index-out-of-range at `t[1]` — it does not return a
`MalformedReference` error.  Second conjunct: on a string whose portion
before the `@` has only 2 `/`-delimited segments, the parse succeeds with an
empty in-repo path — no error of any kind is raised at parse time. -/
theorem C3_malformed_reference_behavior :
    parseRefWFPath "octocat/Hello-World-deploy.yml" = none ∧
    parseRefWFPath "octocat/Hello-World@main" = some ("octocat/Hello-World", "", "main") :=
  ⟨by decide, by decide⟩

theorem resolveReferenced_refPath
    (repoParse : String → Except String String)
    (fetchMeta : String → String → Except String WfMeta)
    (fetchContent : String → String → String → Except String String) :
    ∀ (ds : List ReferencedWorkflow) (wfs : List Workflow),
    resolveReferenced repoParse fetchMeta fetchContent ds = some (Except.ok wfs) →
    List.Forall₂ (fun (wf : Workflow) (d : ReferencedWorkflow) => wf.refPath = d.path) wfs ds := by
  intro ds
  induction ds with
  | nil =>
    intro wfs h
    simp [resolveReferenced] at h
    subst h
    exact List.Forall₂.nil
  | cons d rest ih =>
    intro wfs h
    simp only [resolveReferenced] at h
    split at h
    · simp at h
    · split at h
      · simp at h
      · split at h
        · simp at h
        · split at h
          · simp at h
          · split at h
            · simp at h
            · simp at h
            · next wfs' hrest =>
              obtain ⟨rfl⟩ := h
              exact List.Forall₂.cons rfl (ih wfs' hrest)

/-- C8 counterexample: a resolved run (here with no referenced workflows;
the external fetchers are never consulted) whose workflow metadata carries
the canonical path `.github/workflows/ci.yml`.  The constructed top-level
`Workflow` record's `refPath` is that path — not the empty string the claim
requires. -/
theorem C8_top_level_refpath_counterexample :
    buildAllWorkflows (fun n => Except.ok n) (fun _ _ => Except.error "unused")
      (fun _ _ _ => Except.error "unused")
      ⟨"CI", ".github/workflows/ci.yml"⟩ "name: CI\n" ⟨"main", "abc123", []⟩ =
      some (Except.ok
        ({ name := "CI", refPath := ".github/workflows/ci.yml", filename := "ci.yml",
           ref := "main", sha := "abc123", yaml := "name: CI\n" }, [])) ∧
    ".github/workflows/ci.yml" ≠ "" :=
  ⟨by decide, by decide⟩

/-- C8 amended: in every successfully resolved run, the top-level workflow
record's `refPath` is the canonical workflow path from its metadata (not the
empty string), and each reusable workflow's `refPath` is the exact
invocation string of the corresponding entry of the run's declaration list,
in order. -/
theorem C8_refpath_assignment
    (repoParse : String → Except String String)
    (fetchMeta : String → String → Except String WfMeta)
    (fetchContent : String → String → String → Except String String)
    (meta : WfMeta) (content : String) (run : RunData)
    (cw : Workflow) (wfs : List Workflow)
    (h : buildAllWorkflows repoParse fetchMeta fetchContent meta content run =
      some (Except.ok (cw, wfs))) :
    cw.refPath = meta.path ∧
      List.Forall₂ (fun (wf : Workflow) (d : ReferencedWorkflow) => wf.refPath = d.path)
        wfs run.referencedWorkflows := by
  simp only [buildAllWorkflows] at h
  split at h
  · simp at h
  · simp at h
  · next wfs' hres =>
    have hres' := resolveReferenced_refPath repoParse fetchMeta fetchContent
      run.referencedWorkflows wfs' hres
    simp only [Option.some.injEq, Except.ok.injEq, Prod.mk.injEq] at h
    obtain ⟨h1, h2⟩ := h
    subst h1
    subst h2
    exact ⟨rfl, hres'⟩

/-- C8 amended witness: one referenced workflow; the top-level record gets
the metadata path, the reusable record gets the declared invocation string. -/
theorem C8_refpath_assignment_witness :
    ({ name := "CI", refPath := ".github/workflows/ci.yml", filename := "ci.yml",
       ref := "main", sha := "head1", yaml := "name: CI\n" } : Workflow).refPath =
      (⟨"CI", ".github/workflows/ci.yml"⟩ : WfMeta).path ∧
    List.Forall₂ (fun (wf : Workflow) (d : ReferencedWorkflow) => wf.refPath = d.path)
      [{ name := "Deploy", refPath := "octocat/Hello-World/.github/workflows/deploy.yml@v1",
         filename := "deploy.yml", ref := "v1", sha := "sha2", yaml := "name: Deploy\n" }]
      (⟨"main", "head1",
        [⟨"octocat/Hello-World/.github/workflows/deploy.yml@v1", "sha2", "v1"⟩]⟩ : RunData).referencedWorkflows :=
  C8_refpath_assignment
    (fun n => Except.ok n)
    (fun _ p => Except.ok ⟨"Deploy", p⟩)
    (fun _ _ _ => Except.ok "name: Deploy\n")
    ⟨"CI", ".github/workflows/ci.yml"⟩ "name: CI\n"
    ⟨"main", "head1", [⟨"octocat/Hello-World/.github/workflows/deploy.yml@v1", "sha2", "v1"⟩]⟩
    { name := "CI", refPath := ".github/workflows/ci.yml", filename := "ci.yml",
      ref := "main", sha := "head1", yaml := "name: CI\n" }
    [{ name := "Deploy", refPath := "octocat/Hello-World/.github/workflows/deploy.yml@v1",
       filename := "deploy.yml", ref := "v1", sha := "sha2", yaml := "name: Deploy\n" }]
    (by decide)

/-- C9 counterexample: in the current `runView` (`src/main.go` lines
106-109), a 404 from the content fetch of the top-level workflow file
(filename `ci.yml`, revision `main` supplied) is wrapped as
`failed to get workflow content: ...`: the message neither mentions the
filename nor suggests trying a different revision. -/
theorem C9_not_found_counterexample :
    runViewFetchContent "main" (Except.error (FetchErr.http 404 "HTTP 404: Not Found")) =
      Except.error "failed to get workflow content: HTTP 404: Not Found" ∧
    strHasSub "failed to get workflow content: HTTP 404: Not Found" "ci.yml" = false ∧
    strHasSub "failed to get workflow content: HTTP 404: Not Found" "different" = false :=
  ⟨by decide, by decide, by decide⟩

/-- C9 amended: in the earlier revision's `viewWorkflowContent`
(`src/unnamed/part_000` lines 210-223) — the top-level workflow's content
display — a 404 with a supplied revision produces an error message that
contains the workflow's filename and ends by suggesting a different ref. -/
theorem C9_not_found_hint
    (base ref m : String) (h : ref ≠ "") :
    ∃ msg, viewWorkflowContent base ref (Except.error (FetchErr.http 404 m)) =
        Except.error msg ∧
      (∃ s1 s2, msg = s1 ++ base ++ s2) ∧
      (∃ s3, msg = s3 ++ ", try specifying a different ref") := by
  refine ⟨"could not find workflow file " ++ base ++ " on " ++ ref ++ ", try specifying a different ref",
    ?_, ?_, ?_⟩
  · simp [viewWorkflowContent, h]
  · exact ⟨"could not find workflow file ", " on " ++ ref ++ ", try specifying a different ref",
      by simp [String.append_assoc]⟩
  · exact ⟨"could not find workflow file " ++ base ++ " on " ++ ref, rfl⟩

/-- C9 amended witness: filename `ci.yml`, revision `main`. -/
theorem C9_not_found_hint_witness :
    ∃ msg, viewWorkflowContent "ci.yml" "main" (Except.error (FetchErr.http 404 "HTTP 404: Not Found")) =
        Except.error msg ∧
      (∃ s1 s2, msg = s1 ++ "ci.yml" ++ s2) ∧
      (∃ s3, msg = s3 ++ ", try specifying a different ref") :=
  C9_not_found_hint "ci.yml" "main" "HTTP 404: Not Found" (by decide)

